import Mathlib

/-!
# Verification of the `canvas` repository's persistence and schedule layer

Shallow embedding of the repository's core modules:

* `src/canvas/saveddict.py` — `SavedDict`, a lazily-loaded, disk-backed
  JSON dictionary (`PersistentMap` in the spec), with `rec_update`;
* `src/canvas/coursedata.py` — `SavedCourseData.update_from_canvas`,
  the named-updater reconciler;
* `src/canvas/canvasfs.py` — `LazyDict._load`, `get_canvas_files`,
  `get_canvas_assignments`, `get_canvas_quizzes`, `update_canvasfs` and
  the active-scope stack `cfs`;
* `src/canvas/section.py` — `Header.next_week` and the schedule
  generator `data_iter`.

JSON values are modelled by the inductive `JVal`; JSON objects and
Python dicts are modelled as insertion-ordered association lists with
string keys (Python dicts preserve insertion order; updating an
existing key keeps its position).  The filesystem is a partial map from
path to parsed JSON content; serialisation is the identity on this
model.  Dates are modelled by their proleptic Gregorian ordinal
(`datetime.date.toordinal`), an `Int`; adding `datetime.timedelta(days=7)`
is `+ 7`.
-/

set_option autoImplicit false

namespace Canvas

/-- A JSON value (what `json.load` can return). -/
inductive JVal : Type where
  | num : Int → JVal
  | str : String → JVal
  | jbool : Bool → JVal
  | null : JVal
  | arr : List JVal → JVal
  | obj : List (String × JVal) → JVal

/-- Keys of an association list, in order. -/
def keys {α : Type} (l : List (String × α)) : List String :=
  l.map Prod.fst

/-- First value stored under `k`, if any (Python `dict` lookup; the
association lists built below never hold a key twice). -/
def lookupKey {α : Type} : List (String × α) → String → Option α
  | [], _ => none
  | (k', v') :: rest, k => if k' = k then some v' else lookupKey rest k

/-- Python `d[k] = v` on an insertion-ordered dict: an existing key keeps
its position, a new key is appended. -/
def setKey {α : Type} : List (String × α) → String → α → List (String × α)
  | [], k, v => [(k, v)]
  | (k', v') :: rest, k, v =>
      if k' = k then (k', v) :: rest else (k', v') :: setKey rest k v

/-- Python `dict.__init__(self, data)` / `dict.update(data)` with a dict
argument: insert the pairs of `other` in order into `acc` (it does *not*
clear `acc` first). -/
def dictUpdate {α : Type} (acc other : List (String × α)) : List (String × α) :=
  other.foldl (fun s kv => setKey s kv.1 kv.2) acc

/-- The property that an association list holds each key at most once.
Every dict built by the embedded operations satisfies it. -/
def keysNodup {α : Type} (l : List (String × α)) : Prop :=
  (keys l).Nodup

/-- The filesystem: path ↦ parsed JSON content of the file, `none` when
the file does not exist. -/
def FS : Type := String → Option JVal

/-- The filesystem with a single file. -/
def fsSingle (path : String) (j : JVal) : FS :=
  fun p => if p = path then some j else none

/-- The empty filesystem. -/
def fsEmpty : FS := fun _ => none

/-- Errors a `load` can raise. `typeError`/`valueError` model Python's
`dict()` rejecting a non-dict initialiser; `assertionError` models the
`assert isinstance(data, dict)` in `LazyDict._load` (the spec's
CorruptData); `keyError` models a failed dict lookup. -/
inductive LoadErr : Type where
  | typeError
  | valueError
  | assertionError
deriving DecidableEq

/-- Python `dict.__init__(self, data)` where `data` is an arbitrary
JSON-loaded value (as in `SavedDict.load`): a dict merges in; an
iterable of key/value pairs merges those pairs in (for the string-keyed
caches modelled here the keys are strings; pair elements whose head is
not a string fall outside this embedding's string-keyed dicts and are
mapped to `typeError`, a coarser rendering of CPython's duck-typed pair
protocol that the repository never exercises); a string iterates over
its 1-character elements, so a 2-character element is itself a
key/value pair and any other non-pair element raises `ValueError`; the
empty string merges nothing; numbers, booleans and `null` are not
iterable, raising `TypeError`. -/
def dictInitItems (acc : List (String × JVal)) :
    List JVal → Except LoadErr (List (String × JVal))
  | [] => Except.ok acc
  | JVal.arr [JVal.str k, v] :: rest => dictInitItems (setKey acc k v) rest
  | JVal.arr [_, _] :: _ => Except.error LoadErr.typeError
  | JVal.arr _ :: _ => Except.error LoadErr.valueError
  | JVal.str s :: rest =>
      match s.data with
      | [c1, c2] =>
          dictInitItems (setKey acc (String.mk [c1]) (JVal.str (String.mk [c2]))) rest
      | _ => Except.error LoadErr.valueError
  | _ :: _ => Except.error LoadErr.typeError

/-- `dict.__init__` dispatch on the initialiser's JSON shape; see
`dictInitItems` for the pair-sequence (JSON array) case. -/
def dictInitJ (acc : List (String × JVal)) : JVal → Except LoadErr (List (String × JVal))
  | JVal.obj kvs => Except.ok (dictUpdate acc kvs)
  | JVal.arr items => dictInitItems acc items
  | JVal.str s => if s = "" then Except.ok acc else Except.error LoadErr.valueError
  | JVal.num _ => Except.error LoadErr.typeError
  | JVal.jbool _ => Except.error LoadErr.typeError
  | JVal.null => Except.error LoadErr.typeError

/-- The state of a `SavedDict` (`src/canvas/saveddict.py`): the stored
filename, the `_needinit` flag, the `_default` content and the inherited
dict's own entries. -/
structure SavedDict : Type where
  filename : String
  needinit : Bool
  defaultD : List (String × JVal)
  entries : List (String × JVal)

namespace SavedDict

/-- `SavedDict.__init__(filename, default)`: the inherited dict starts
empty and `_needinit` is set. -/
def mk0 (filename : String) (default : List (String × JVal)) : SavedDict :=
  ⟨filename, true, default, []⟩

/-- `SavedDict.load(data)` with `data` given (a Python dict):
`super().__init__(data)` merges `data` into the current entries and
clears `_needinit`. -/
def loadData (d : SavedDict) (data : List (String × JVal)) : SavedDict :=
  { d with entries := dictUpdate d.entries data, needinit := false }

/-- `SavedDict.load()` with `data is None`: read the file if it exists
(else take the default) and hand the result to `dict.__init__`. -/
def loadNone (d : SavedDict) (fs : FS) : Except LoadErr SavedDict :=
  match fs d.filename with
  | none => Except.ok (d.loadData d.defaultD)
  | some j =>
      match dictInitJ d.entries j with
      | Except.ok es => Except.ok { d with entries := es, needinit := false }
      | Except.error e => Except.error e

/-- `SavedDict.save()`: a no-op while `_needinit` is set, otherwise a
whole-file overwrite of `filename` with the entries as a JSON object. -/
def save (d : SavedDict) (fs : FS) : FS :=
  if d.needinit then fs
  else fun p => if p = d.filename then some (JVal.obj d.entries) else fs p

/-- `SavedDict.reset()`: set `_needinit` and `clear()` the entries. -/
def reset (d : SavedDict) : SavedDict :=
  { d with needinit := true, entries := [] }

/-- `SavedDict.__getitem__`: load first when `_needinit`, then plain
dict lookup (`none` models the `KeyError` path). -/
def getItem (d : SavedDict) (fs : FS) (k : String) :
    Except LoadErr (SavedDict × Option JVal) :=
  match (if d.needinit then d.loadNone fs else Except.ok d) with
  | Except.ok d' => Except.ok (d', lookupKey d'.entries k)
  | Except.error e => Except.error e

/-- `SavedDict.__setitem__`: load first when `_needinit`, then plain
dict assignment. -/
def setItem (d : SavedDict) (fs : FS) (k : String) (v : JVal) :
    Except LoadErr SavedDict :=
  match (if d.needinit then d.loadNone fs else Except.ok d) with
  | Except.ok d' => Except.ok { d' with entries := setKey d'.entries k v }
  | Except.error e => Except.error e

/-- The value produced by a read, `none` when the read raised or the key
was absent. -/
def readValue (r : Except LoadErr (SavedDict × Option JVal)) : Option JVal :=
  match r with
  | Except.ok (_, v) => v
  | Except.error _ => none

/-- Inherited `dict.__contains__` (`k in d`): `SavedDict` does not
override it, so it probes only the in-memory entries and never loads. -/
def containsMem (d : SavedDict) (k : String) : Bool :=
  (lookupKey d.entries k).isSome

/-- Inherited `dict.get(k, default)`: `SavedDict` does not override it,
so it probes only the in-memory entries and never loads. -/
def getDefault (d : SavedDict) (k : String) (dv : JVal) : JVal :=
  (lookupKey d.entries k).getD dv

end SavedDict

/-- `rec_update(self, other)` from `src/canvas/saveddict.py`: for each
key of `other` in order, merge recursively when both the existing value
(`key in self and isinstance(self[key], dict)`) and the incoming value
(`isinstance(value, dict)`) are dicts, otherwise overwrite. -/
def rec_update : List (String × JVal) → List (String × JVal) → List (String × JVal)
  | self, [] => self
  | self, (k, JVal.obj vo) :: rest =>
      (match lookupKey self k with
        | some (JVal.obj inner) =>
            rec_update (setKey self k (JVal.obj (rec_update inner vo))) rest
        | _ => rec_update (setKey self k (JVal.obj vo)) rest)
  | self, (k, v) :: rest => rec_update (setKey self k v) rest

/-- `SavedDict.update(other)`: implicit load when `_needinit`, then
`rec_update`. -/
def SavedDict.update (d : SavedDict) (fs : FS) (other : List (String × JVal)) :
    Except LoadErr SavedDict :=
  match (if d.needinit then d.loadNone fs else Except.ok d) with
  | Except.ok d' => Except.ok { d' with entries := rec_update d'.entries other }
  | Except.error e => Except.error e

/-! ## `src/canvas/section.py`: the schedule generator

Dates are proleptic Gregorian ordinals (`datetime.date.toordinal`); the
constants below are the ordinals of the concrete dates used by the
spec's example (2022-09-15 ↦ 738413, and each later date 7·k further). -/

/-- Ordinal of 2022-09-15. -/
def d0915 : Int := 738413
/-- Ordinal of 2022-09-22. -/
def d0922 : Int := 738420
/-- Ordinal of 2022-09-29. -/
def d0929 : Int := 738427
/-- Ordinal of 2022-10-06. -/
def d1006 : Int := 738434

/-- The schedule header fields that drive `data_iter`
(`Header` in `src/canvas/section.py`): `first_section`, the optional
`last_section` (`hasattr(header, "last_section")` is `false` when the
field is absent) and the `breaks` list. -/
structure Header : Type where
  first_section : Int
  last_section : Option Int
  breaks : List Int

/-- The loop body of `Header.next_week`, with fuel.  Each iteration adds
7 days and one week and stops at the first date not in `breaks`; the
visited dates are pairwise distinct, so at most `breaks.length` of them
can be breaks and fuel `breaks.length + 1` is never exhausted (the
fuel-0 branch is unreachable from `Header.next_week`). -/
def nextWeekAux (breaks : List Int) : Nat → Int → Nat → Int × Nat
  | 0, date, week => (date + 7, week + 1)
  | fuel + 1, date, week =>
      let d := date + 7
      let w := week + 1
      if d ∈ breaks then nextWeekAux breaks fuel d w else (d, w)

/-- `Header.next_week(date, week)`: advance by 7 days repeatedly until
the date is not in `breaks`, counting every 7-day step into `week`. -/
def Header.next_week (h : Header) (date : Int) (week : Nat) : Int × Nat :=
  nextWeekAux h.breaks (h.breaks.length + 1) date week

/-- One cursor `{date, serial, week}` of the generator. -/
structure Cursor : Type where
  date : Int
  serial : Nat
  week : Nat
deriving DecidableEq, Repr

/-- One advance step of `data_iter`:
`date, week = header.next_week(date, serial)` — the source passes
`serial`, not `week`, as `next_week`'s `week` argument — then
`serial += 1`. -/
def dataStep (h : Header) (c : Cursor) : Cursor :=
  let dw := h.next_week c.date c.serial
  ⟨dw.1, c.serial + 1, dw.2⟩

/-- The `while` guard of `data_iter`:
`not hasattr(header, "last_section") or date <= header.last_section`. -/
def dataGuard (h : Header) (date : Int) : Bool :=
  match h.last_section with
  | none => true
  | some l => decide (date ≤ l)

/-- The first at most `n` records yielded by `data_iter(header)`,
starting from a given cursor. -/
def dataIterFrom (h : Header) : Nat → Cursor → List Cursor
  | 0, _ => []
  | n + 1, c =>
      if dataGuard h c.date then c :: dataIterFrom h n (dataStep h c)
      else []

/-- The first at most `n` records yielded by `data_iter(header)`
(`date = first_section, serial = 1, week = 1` initially). -/
def data_iter (h : Header) (n : Nat) : List Cursor :=
  dataIterFrom h n ⟨h.first_section, 1, 1⟩

/-! ## `src/canvas/canvasfs.py`: `LazyDict`, snapshots and the scope stack -/

/-- `LazyDict._load`: read the file when it exists and `assert` the
parsed JSON is an object (the spec's CorruptData check); a missing file
yields the empty dict. -/
def LazyDict.loadFile (fs : FS) (filename : String) :
    Except LoadErr (List (String × JVal)) :=
  match fs filename with
  | none => Except.ok []
  | some (JVal.obj kvs) => Except.ok kvs
  | some _ => Except.error LoadErr.assertionError

/-- Whether a JSON value is an object (`isinstance(data, dict)`). -/
def JVal.isObj : JVal → Bool
  | JVal.obj _ => true
  | _ => false

/-- A remote file (`display_name`, `id`), as consumed by
`get_canvas_files`. -/
structure CFile : Type where
  display_name : String
  id : Int
deriving DecidableEq

/-- A remote folder: its `full_name`, its `files_count` attribute, and
the files `folder.get_files()` would list. -/
structure Folder : Type where
  full_name : String
  files_count : Nat
  files : List CFile
deriving DecidableEq

/-- A remote assignment (`id`, `assignment_group_id`, `name`). -/
structure Assignment : Type where
  id : Int
  assignment_group_id : Int
  name : String
deriving DecidableEq

/-- A remote quiz (`id`, `title`). -/
structure Quiz : Type where
  id : Int
  title : String
deriving DecidableEq

/-- The remote-course capability: what the listing calls used by the
snapshot builders return.  `groupName` models
`course.get_assignment_group(gid).name`. -/
structure Course : Type where
  folders : List Folder
  assignments : List Assignment
  groupName : Int → String
  quizzes : List Quiz

/-- `prf` is a leading run of `s`. -/
def hasPref : List Char → List Char → Bool
  | [], _ => true
  | _ :: _, [] => false
  | p :: ps, c :: cs => p == c && hasPref ps cs

/-- Python `s.replace(pat, "")` for non-empty `pat` on char lists:
remove every (left-to-right, non-overlapping) occurrence of `pat`.
Fuel is the length of the subject; every step consumes at least one
character, so the fuel-0 branch is unreachable from `removeAll`. -/
def removeAllF : Nat → List Char → List Char → List Char
  | 0, _, _ => []
  | _ + 1, _, [] => []
  | fuel + 1, pat, c :: rest =>
      if hasPref pat (c :: rest) && !pat.isEmpty then
        removeAllF fuel pat (List.drop (pat.length - 1) rest)
      else c :: removeAllF fuel pat rest

/-- Python `s.replace(pat, "")` on strings (for non-empty `pat`). -/
def removeAll (pat s : String) : String :=
  String.mk (removeAllF s.data.length pat.data s.data)

/-- `get_canvas_files(course)`: for each folder with `files_count > 0`,
insert each file under `folder.full_name.replace("course files", "")`
followed by `/` and the display name; empty folders are skipped without
listing their files. -/
def get_canvas_files (course : Course) : List (String × Int) :=
  course.folders.foldl
    (fun data folder =>
      if folder.files_count > 0 then
        let folder_name := removeAll "course files" folder.full_name
        folder.files.foldl
          (fun d file => setKey d (folder_name ++ "/" ++ file.display_name) file.id)
          data
      else data)
    []

/-- `get_canvas_assignments(course)`: key each assignment by
`{group_name}/{assignment_name}` (the `lru_cache` memoisation of the
group-name lookup is not observable in this pure model). -/
def get_canvas_assignments (course : Course) : List (String × Int) :=
  course.assignments.foldl
    (fun data a =>
      setKey data (course.groupName a.assignment_group_id ++ "/" ++ a.name) a.id)
    []

/-- `get_canvas_quizzes(course)`: key each quiz by its title. -/
def get_canvas_quizzes (course : Course) : List (String × Int) :=
  course.quizzes.foldl (fun data q => setKey data q.title q.id) []

/-- The per-instance state of a `CanvasFS`: for each namespace, the
instance-dict slot of its `LazyDict` descriptor (`none` when the slot is
not populated, i.e. the namespace has not been loaded or assigned). -/
structure CanvasFS : Type where
  files : Option (List (String × Int))
  assignments : Option (List (String × Int))
  quizzes : Option (List (String × Int))

/-- The error raised by `update_canvasfs` outside any scope: the source
raises `IndexError("update_canvasfs must be used within `with
canvasfs(): ` context")`. -/
inductive CfsErr : Type where
  | usageError
deriving DecidableEq

/-- `update_canvasfs(course)`: fail with the usage error when the module
stack `cfs` is empty; otherwise assign all three snapshots onto the
top-of-stack cache (`cfs[-1]`, the last element — the stack is pushed
with `append` and popped from the end). -/
def update_canvasfs (stack : List CanvasFS) (course : Course) :
    Except CfsErr (List CanvasFS) :=
  match stack.getLast? with
  | none => Except.error CfsErr.usageError
  | some top =>
      Except.ok (stack.dropLast ++
        [{ top with
            files := some (get_canvas_files course),
            assignments := some (get_canvas_assignments course),
            quizzes := some (get_canvas_quizzes course) }])

/-! ## `src/canvas/coursedata.py`: the named-updater reconciler

`coursedata.SavedDict` shares `load`/`save`/`reset`/`__getitem__` with
`saveddict.SavedDict`, so the `SavedDict` embedding above is reused.
An updater callable either raises (`Except.error ()`), returns `None`
(`Except.ok none`), or returns a dict (`Except.ok (some data)`). -/

/-- The registered updaters: name ↦ updater callable, `none` when no
updater is registered for the name. -/
def Updaters : Type :=
  String → Option (Course → Except Unit (Option (List (String × JVal))))

/-- The warnings `update_from_canvas` can log, each naming its
namespace. -/
inductive CWarning : Type where
  | noUpdater (name : String)
  | updaterFailed (name : String)
  | returnedNone (name : String)
deriving DecidableEq

/-- Update a name ↦ `SavedDict` table at one name. -/
def updDicts (dicts : String → SavedDict) (n : String) (d : SavedDict) :
    String → SavedDict :=
  fun m => if m = n then d else dicts m

/-- The body of `update_from_canvas` for a single namespace `n`: no
registered updater — warn and skip; updater raises — warn and skip;
updater returns `None` — warn and skip; otherwise `ldict.load(data)`. -/
def processField (dicts : String → SavedDict) (upd : Updaters) (course : Course)
    (n : String) : (String → SavedDict) × Option CWarning :=
  match upd n with
  | none => (dicts, some (CWarning.noUpdater n))
  | some u =>
      match u course with
      | Except.error _ => (dicts, some (CWarning.updaterFailed n))
      | Except.ok none => (dicts, some (CWarning.returnedNone n))
      | Except.ok (some data) =>
          (updDicts dicts n ((dicts n).loadData data), none)

/-- `SavedCourseData.update_from_canvas(course)` over a field list:
process each namespace in order, collecting the logged warnings; no
exception propagates out of the call. -/
def updateFromCanvas (dicts : String → SavedDict) (upd : Updaters)
    (course : Course) : List String → (String → SavedDict) × List CWarning
  | [] => (dicts, [])
  | n :: rest =>
      let step := processField dicts upd course n
      let next := updateFromCanvas step.1 upd course rest
      (next.1, step.2.toList ++ next.2)

/-- The net effect of `update_from_canvas` on the namespace `n`'s dict:
replaced by `load(data)` exactly when `n`'s updater exists and returns a
dict, untouched otherwise. -/
def fieldOutcome (upd : Updaters) (course : Course) (n : String)
    (d : SavedDict) : SavedDict :=
  match upd n with
  | none => d
  | some u =>
      match u course with
      | Except.ok (some data) => d.loadData data
      | _ => d

/-- The warning `update_from_canvas` logs for the namespace `n`, if
any. -/
def fieldWarning (upd : Updaters) (course : Course) (n : String) :
    Option CWarning :=
  match upd n with
  | none => some (CWarning.noUpdater n)
  | some u =>
      match u course with
      | Except.error _ => some (CWarning.updaterFailed n)
      | Except.ok none => some (CWarning.returnedNone n)
      | Except.ok (some _) => none

/-! ## Claim-side definitions and concrete scenarios -/

/-- Modelled from the spec: the claimed key rule for files —
"`{folder_full_path_with_root_prefix_stripped}/{display_name}`", i.e.
remove the leading `"course files"` (only) from the folder's full path.
Used to compare the claimed rule with the source's
`full_name.replace("course files", "")`. -/
def stripRootOnly (s : String) : String :=
  if hasPref "course files".data s.data then
    String.mk (s.data.drop "course files".data.length)
  else s

/-- The logical-path/id entry `get_canvas_files` records for one file of
one folder. -/
def fileEntry (folder : Folder) (file : CFile) : String × Int :=
  (removeAll "course files" folder.full_name ++ "/" ++ file.display_name, file.id)

/-- The entries one folder contributes: none when its `files_count` is
zero, one per file otherwise. -/
def folderEntries (folder : Folder) : List (String × Int) :=
  if folder.files_count > 0 then folder.files.map (fileEntry folder) else []

/-- All entries of a course's folders, in traversal order. -/
def filesEntries (course : Course) : List (String × Int) :=
  (course.folders.map folderEntries).flatten

/-- A remote course with nothing in it (used by concrete reconciler
scenarios, whose updaters ignore the course). -/
def course0 : Course :=
  ⟨[], [], fun _ => "", []⟩

/-- A concrete updater table: `"quizzes"` raises, `"files"` and
`"assignments"` return fresh snapshots, any other name has no updater. -/
def wUpd : Updaters := fun n =>
  if n = "quizzes" then some (fun _ => Except.error ())
  else if n = "files" then some (fun _ => Except.ok (some [("a", JVal.num 1)]))
  else if n = "assignments" then some (fun _ => Except.ok (some [("b", JVal.num 2)]))
  else none

/-- A concrete namespace table: every namespace starts as a fresh
`SavedDict` over its own file. -/
def wDicts : String → SavedDict := fun n => SavedDict.mk0 n []

/-! ## Association-list lemmas -/

theorem keys_nil {α : Type} : keys ([] : List (String × α)) = [] := rfl

theorem keys_cons {α : Type} (kv : String × α) (rest : List (String × α)) :
    keys (kv :: rest) = kv.1 :: keys rest := rfl

theorem lookupKey_setKey_self {α : Type} (l : List (String × α)) (k : String) (v : α) :
    lookupKey (setKey l k v) k = some v := by
  induction l with
  | nil => simp [setKey, lookupKey]
  | cons kv rest ih =>
      obtain ⟨k', v'⟩ := kv
      by_cases h : k' = k
      · simp [setKey, h, lookupKey]
      · simp [setKey, h, lookupKey, ih]

theorem lookupKey_setKey_ne {α : Type} (l : List (String × α)) (k k' : String) (v : α)
    (h : k' ≠ k) : lookupKey (setKey l k v) k' = lookupKey l k' := by
  induction l with
  | nil =>
      show (if k = k' then some v else lookupKey [] k') = lookupKey [] k'
      rw [if_neg (fun hh => h hh.symm)]
  | cons kv rest ih =>
      obtain ⟨k₀, v₀⟩ := kv
      by_cases h0 : k₀ = k
      · subst h0
        simp only [setKey, if_pos rfl, lookupKey]
        rw [if_neg (fun hh => h hh.symm), if_neg (fun hh => h hh.symm)]
      · simp only [setKey, if_neg h0, lookupKey]
        by_cases h1 : k₀ = k'
        · simp [h1]
        · simp [h1, ih]

theorem keys_setKey {α : Type} (l : List (String × α)) (k : String) (v : α) :
    keys (setKey l k v) = if k ∈ keys l then keys l else keys l ++ [k] := by
  induction l with
  | nil => simp [setKey, keys_nil, keys_cons]
  | cons kv rest ih =>
      obtain ⟨k', v'⟩ := kv
      by_cases h : k' = k
      · subst h
        simp [setKey, keys_cons]
      · have hne : ¬ k = k' := fun hh => h hh.symm
        by_cases hm : k ∈ keys rest
        · simp [setKey, h, keys_cons, ih, hm, hne]
        · simp [setKey, h, keys_cons, ih, hm, hne]

theorem keysNodup_setKey {α : Type} (l : List (String × α)) (k : String) (v : α)
    (h : keysNodup l) : keysNodup (setKey l k v) := by
  unfold keysNodup at *
  rw [keys_setKey]
  by_cases hm : k ∈ keys l
  · simpa [hm] using h
  · simp [hm, List.nodup_append, h]

theorem dictUpdate_nil {α : Type} (acc : List (String × α)) : dictUpdate acc [] = acc := rfl

theorem dictUpdate_cons {α : Type} (acc : List (String × α)) (kv : String × α)
    (rest : List (String × α)) :
    dictUpdate acc (kv :: rest) = dictUpdate (setKey acc kv.1 kv.2) rest := rfl

theorem dictUpdate_append {α : Type} (acc l₁ l₂ : List (String × α)) :
    dictUpdate acc (l₁ ++ l₂) = dictUpdate (dictUpdate acc l₁) l₂ := by
  simp [dictUpdate, List.foldl_append]

theorem keysNodup_dictUpdate {α : Type} (other : List (String × α)) :
    ∀ acc : List (String × α), keysNodup acc → keysNodup (dictUpdate acc other) := by
  induction other with
  | nil => intro acc h; simpa [dictUpdate_nil] using h
  | cons kv rest ih =>
      intro acc h
      rw [dictUpdate_cons]
      exact ih _ (keysNodup_setKey _ _ _ h)

theorem keys_append {α : Type} (l₁ l₂ : List (String × α)) :
    keys (l₁ ++ l₂) = keys l₁ ++ keys l₂ := by
  simp [keys]

theorem setKey_of_not_mem {α : Type} (l : List (String × α)) (k : String) (v : α)
    (h : k ∉ keys l) : setKey l k v = l ++ [(k, v)] := by
  induction l with
  | nil => simp [setKey]
  | cons kv rest ih =>
      obtain ⟨k', v'⟩ := kv
      rw [keys_cons] at h
      simp only [List.mem_cons, not_or] at h
      obtain ⟨hkk, hrest⟩ := h
      have hne : ¬ k' = k := fun hh => hkk hh.symm
      simp [setKey, hne, ih hrest]

theorem dictUpdate_eq_append {α : Type} (other : List (String × α)) :
    ∀ acc : List (String × α), keysNodup other →
      (∀ x, x ∈ keys other → x ∉ keys acc) →
      dictUpdate acc other = acc ++ other := by
  induction other with
  | nil => intro acc _ _; simp [dictUpdate_nil]
  | cons kv rest ih =>
      intro acc hnd hdisj
      obtain ⟨k, v⟩ := kv
      have hnd' : (k :: keys rest).Nodup := by
        have h0 := hnd
        unfold keysNodup at h0
        rwa [keys_cons] at h0
      have hk : k ∉ keys acc := hdisj k (by rw [keys_cons]; exact List.mem_cons_self _ _)
      have hknr : k ∉ keys rest := (List.nodup_cons.mp hnd').1
      have hndr : keysNodup rest := (List.nodup_cons.mp hnd').2
      rw [dictUpdate_cons]
      have hset : setKey acc k v = acc ++ [(k, v)] := setKey_of_not_mem acc k v hk
      rw [hset, ih (acc ++ [(k, v)]) hndr ?_]
      · simp
      · intro x hx
        rw [keys_append]
        simp only [List.mem_append]
        rintro (hxa | hxk)
        · exact hdisj x (by rw [keys_cons]; exact List.mem_cons_of_mem _ hx) hxa
        · have hxk' : x = k := by
            have : keys [(k, v)] = [k] := rfl
            rw [this] at hxk
            simpa using hxk
          subst hxk'
          exact hknr hx

theorem dictUpdate_nil_left {α : Type} (l : List (String × α)) (h : keysNodup l) :
    dictUpdate [] l = l := by
  simpa using dictUpdate_eq_append l [] h (by simp [keys])

/-! ## `SavedDict` lemmas -/

theorem dictInitItems_ok_nodup (items : List JVal) :
    ∀ (acc es : List (String × JVal)), keysNodup acc →
      dictInitItems acc items = Except.ok es → keysNodup es := by
  induction items with
  | nil =>
      intro acc es hnd h
      simp only [dictInitItems] at h
      injection h with h
      exact h ▸ hnd
  | cons item rest ih =>
      intro acc es hnd h
      match item with
      | JVal.arr [JVal.str k, v] =>
          exact ih _ es (keysNodup_setKey _ _ _ hnd) h
      | JVal.arr ([] : List JVal) => simp [dictInitItems] at h
      | JVal.arr [x] => simp [dictInitItems] at h
      | JVal.arr (JVal.num n :: x :: ([] : List JVal)) => simp [dictInitItems] at h
      | JVal.arr (JVal.jbool b :: x :: ([] : List JVal)) => simp [dictInitItems] at h
      | JVal.arr (JVal.null :: x :: ([] : List JVal)) => simp [dictInitItems] at h
      | JVal.arr (JVal.arr a :: x :: ([] : List JVal)) => simp [dictInitItems] at h
      | JVal.arr (JVal.obj o :: x :: ([] : List JVal)) => simp [dictInitItems] at h
      | JVal.arr (x :: y :: z :: rest') => simp [dictInitItems] at h
      | JVal.str s =>
          rw [dictInitItems] at h
          match hs : s.data with
          | [c1, c2] =>
              rw [hs] at h
              exact ih _ es (keysNodup_setKey _ _ _ hnd) h
          | [] => rw [hs] at h; exact absurd h (by simp)
          | [c] => rw [hs] at h; exact absurd h (by simp)
          | c1 :: c2 :: c3 :: cs => rw [hs] at h; exact absurd h (by simp)
      | JVal.num n => simp [dictInitItems] at h
      | JVal.jbool b => simp [dictInitItems] at h
      | JVal.null => simp [dictInitItems] at h
      | JVal.obj o => simp [dictInitItems] at h

theorem dictInitJ_ok_nodup (j : JVal) (acc es : List (String × JVal))
    (hnd : keysNodup acc) (h : dictInitJ acc j = Except.ok es) : keysNodup es := by
  match j with
  | JVal.obj kvs =>
      simp only [dictInitJ] at h
      injection h with h
      exact h ▸ keysNodup_dictUpdate kvs acc hnd
  | JVal.arr items => exact dictInitItems_ok_nodup items acc es hnd h
  | JVal.str s =>
      simp only [dictInitJ] at h
      by_cases hs : s = ""
      · rw [if_pos hs] at h
        injection h with h
        exact h ▸ hnd
      · rw [if_neg hs] at h
        exact absurd h (by simp)
  | JVal.num n => simp [dictInitJ] at h
  | JVal.jbool b => simp [dictInitJ] at h
  | JVal.null => simp [dictInitJ] at h

/-- What a successful implicit load guarantees: the flag is cleared, the
filename and default are untouched, and key-uniqueness of the entries is
preserved. -/
theorem loadNone_ok (d : SavedDict) (fs : FS) (d' : SavedDict)
    (h : d.loadNone fs = Except.ok d') (hnd : keysNodup d.entries) :
    d'.needinit = false ∧ d'.filename = d.filename ∧ keysNodup d'.entries := by
  unfold SavedDict.loadNone at h
  cases hfs : fs d.filename with
  | none =>
      rw [hfs] at h
      injection h with h
      subst h
      exact ⟨rfl, rfl, keysNodup_dictUpdate _ _ hnd⟩
  | some j =>
      rw [hfs] at h
      dsimp only at h
      cases hdi : dictInitJ d.entries j with
      | ok es =>
          rw [hdi] at h
          injection h with h
          subst h
          exact ⟨rfl, rfl, dictInitJ_ok_nodup j _ es hnd hdi⟩
      | error e => rw [hdi] at h; exact absurd h (by simp)

/-- Reading through a never-loaded `SavedDict` whose file holds the
JSON object `E`: the load adopts exactly `E` and the read is a plain
lookup in `E`. -/
theorem getItem_fresh (d : SavedDict) (fs : FS) (k : String)
    (E : List (String × JVal)) (hinit : d.needinit = true) (hent : d.entries = [])
    (hfs : fs d.filename = some (JVal.obj E)) (hnd : keysNodup E) :
    d.getItem fs k =
      Except.ok ({ d with entries := E, needinit := false }, lookupKey E k) := by
  unfold SavedDict.getItem
  rw [hinit]
  unfold SavedDict.loadNone
  rw [hfs]
  simp only [dictInitJ, hent]
  rw [dictUpdate_nil_left E hnd]
  simp

theorem mk0_needinit (fn : String) (df : List (String × JVal)) :
    (SavedDict.mk0 fn df).needinit = true := rfl

theorem mk0_entries (fn : String) (df : List (String × JVal)) :
    (SavedDict.mk0 fn df).entries = [] := rfl

theorem mk0_filename (fn : String) (df : List (String × JVal)) :
    (SavedDict.mk0 fn df).filename = fn := rfl

theorem setItem_of_needinit (d : SavedDict) (fs : FS) (k : String) (v : JVal)
    (h : d.needinit = true) :
    d.setItem fs k v =
      match d.loadNone fs with
      | Except.ok d' => Except.ok { d' with entries := setKey d'.entries k v }
      | Except.error e => Except.error e := by
  unfold SavedDict.setItem
  rw [h]
  simp

theorem getItem_of_needinit (d : SavedDict) (fs : FS) (k : String)
    (h : d.needinit = true) :
    d.getItem fs k =
      match d.loadNone fs with
      | Except.ok d' => Except.ok (d', lookupKey d'.entries k)
      | Except.error e => Except.error e := by
  unfold SavedDict.getItem
  rw [h]
  simp

/-- A loaded `SavedDict`'s `save` writes its entries, as a JSON object,
over its own file. -/
theorem save_at_filename (d : SavedDict) (fs : FS) (h : d.needinit = false) :
    d.save fs d.filename = some (JVal.obj d.entries) := by
  unfold SavedDict.save
  rw [h]
  simp

/-- A loaded `SavedDict`'s `save` leaves every other path alone. -/
theorem save_other_path (d : SavedDict) (fs : FS) (p : String)
    (hp : p ≠ d.filename) : d.save fs p = fs p := by
  unfold SavedDict.save
  cases hni : d.needinit with
  | true => simp
  | false => simp [hp]

/-! ## Claim theorems: `SavedDict` -/

/-- C2: inserting a key/value pair into a `PersistentMap` (`SavedDict`),
saving, and reading the key back after a reload — both through a fresh
instance over the same storage path (with any default) and through the
same instance after a `reset` (which forces a reload from disk) —
returns the originally inserted value. -/
theorem saveddict_save_load_roundtrip (fn : String) (df df2 : List (String × JVal))
    (fs : FS) (k : String) (v : JVal) (d1 : SavedDict)
    (h : (SavedDict.mk0 fn df).setItem fs k v = Except.ok d1) :
    SavedDict.readValue ((SavedDict.mk0 fn df2).getItem (d1.save fs) k) = some v ∧
    SavedDict.readValue (d1.reset.getItem (d1.save fs) k) = some v := by
  rw [setItem_of_needinit _ _ _ _ (mk0_needinit fn df)] at h
  cases hl : (SavedDict.mk0 fn df).loadNone fs with
  | error e => rw [hl] at h; exact absurd h (by simp)
  | ok d' =>
      rw [hl] at h
      dsimp only at h
      injection h with h
      obtain ⟨hni, hfn, hnd⟩ :=
        loadNone_ok _ fs d' hl (by simp [mk0_entries, keysNodup, keys])
      rw [mk0_filename] at hfn
      subst h
      have hndE : keysNodup (setKey d'.entries k v) := keysNodup_setKey _ _ _ hnd
      have hlook : lookupKey (setKey d'.entries k v) k = some v :=
        lookupKey_setKey_self _ _ _
      have hd1ni : ({ d' with entries := setKey d'.entries k v } : SavedDict).needinit
          = false := hni
      have hfs' :
          SavedDict.save { d' with entries := setKey d'.entries k v } fs fn
            = some (JVal.obj (setKey d'.entries k v)) := by
        simp [SavedDict.save, hni, hfn]
      constructor
      · rw [getItem_fresh (SavedDict.mk0 fn df2) _ k (setKey d'.entries k v) rfl rfl
          (by rw [mk0_filename]; exact hfs') hndE]
        simp [SavedDict.readValue, hlook]
      · rw [getItem_fresh ({ d' with entries := setKey d'.entries k v } : SavedDict).reset
          _ k (setKey d'.entries k v) rfl rfl
          (by simp [SavedDict.save, SavedDict.reset, hni, hfn]) hndE]
        simp [SavedDict.readValue, hlook]

/-- Witness for C2 at a concrete input: insert `"a" ↦ 1` into a fresh
map over `"data.json"` on an empty filesystem, save, and read back
through a fresh instance (with a different default). -/
theorem saveddict_save_load_roundtrip_witness :
    (SavedDict.mk0 "data.json" []).setItem fsEmpty "a" (JVal.num 1)
        = Except.ok ⟨"data.json", false, [], [("a", JVal.num 1)]⟩ ∧
    SavedDict.readValue ((SavedDict.mk0 "data.json" [("z", JVal.null)]).getItem
        ((⟨"data.json", false, [], [("a", JVal.num 1)]⟩ : SavedDict).save fsEmpty) "a")
      = some (JVal.num 1) :=
  ⟨rfl, (saveddict_save_load_roundtrip "data.json" [] [("z", JVal.null)] fsEmpty
    "a" (JVal.num 1) _ rfl).1⟩

/-- C3: on every `SavedDict` state and every filesystem, `reset()`
followed immediately by `save()` leaves every file unchanged — `reset`
sets `_needinit` without reloading, and `save` is a no-op while
`_needinit` is set. -/
theorem reset_then_save_is_frame (d : SavedDict) (fs : FS) :
    d.reset.save fs = fs := by
  unfold SavedDict.reset SavedDict.save
  simp

/-- C4: starting from an empty map, `update({"a": {"x": 1}})` followed
by `update({"a": {"y": 2}})` merges recursively into
`{"a": {"x": 1, "y": 2}}`, while `update({"a": {"x": 1}})` followed by
`update({"a": 5})` overwrites to `{"a": 5}` — `rec_update` merges
exactly when both the existing and the incoming value are dicts. -/
theorem saveddict_update_merge_and_overwrite :
    (((SavedDict.mk0 "cache.json" []).update fsEmpty
        [("a", JVal.obj [("x", JVal.num 1)])]).bind
      (fun d => d.update fsEmpty [("a", JVal.obj [("y", JVal.num 2)])]))
      = Except.ok ⟨"cache.json", false, [],
          [("a", JVal.obj [("x", JVal.num 1), ("y", JVal.num 2)])]⟩ ∧
    (((SavedDict.mk0 "cache.json" []).update fsEmpty
        [("a", JVal.obj [("x", JVal.num 1)])]).bind
      (fun d => d.update fsEmpty [("a", JVal.num 5)]))
      = Except.ok ⟨"cache.json", false, [], [("a", JVal.num 5)]⟩ := by
  constructor
  · simp [SavedDict.update, SavedDict.loadNone, SavedDict.mk0, SavedDict.loadData,
      fsEmpty, rec_update, lookupKey, setKey, dictUpdate, Except.bind]
  · simp [SavedDict.update, SavedDict.loadNone, SavedDict.mk0, SavedDict.loadData,
      fsEmpty, rec_update, lookupKey, setKey, dictUpdate, Except.bind]

/-- Counterexample to C5 as stated: `SavedDict.load()` (the
`saveddict.py` `PersistentMap`) over a file whose content is the JSON
array `[]` — valid JSON, not an object — succeeds and marks the map
loaded with empty entries, instead of failing with a CorruptData
error: `dict.__init__` accepts the empty sequence, and `SavedDict.load`
has no `isinstance(data, dict)` check. -/
theorem saveddict_load_accepts_nonobject :
    (SavedDict.mk0 ".files.json" []).loadNone
        (fsSingle ".files.json" (JVal.arr []))
      = Except.ok ⟨".files.json", false, [], []⟩ := rfl

/-- C5 amended: the CorruptData check exists in the `LazyDict`
(`canvasfs.py`) loader only — for every filesystem and path whose file
holds valid JSON that is not a JSON object, `LazyDict._load` fails with
its assertion error rather than adopting the content. -/
theorem lazydict_load_rejects_nonobject (fs : FS) (fn : String) (j : JVal)
    (hfs : fs fn = some j) (hobj : j.isObj = false) :
    LazyDict.loadFile fs fn = Except.error LoadErr.assertionError := by
  unfold LazyDict.loadFile
  rw [hfs]
  match j, hobj with
  | JVal.num n, _ => rfl
  | JVal.str s, _ => rfl
  | JVal.jbool b, _ => rfl
  | JVal.null, _ => rfl
  | JVal.arr l, _ => rfl

/-- Witness for the amended C5 at a concrete input: a file holding the
JSON array `[]`. -/
theorem lazydict_load_rejects_nonobject_witness :
    fsSingle ".files.json" (JVal.arr []) ".files.json" = some (JVal.arr []) ∧
    (JVal.arr []).isObj = false ∧
    LazyDict.loadFile (fsSingle ".files.json" (JVal.arr [])) ".files.json"
      = Except.error LoadErr.assertionError :=
  ⟨rfl, rfl,
    lazydict_load_rejects_nonobject (fsSingle ".files.json" (JVal.arr []))
      ".files.json" (JVal.arr []) rfl rfl⟩

/-- C10: on a never-loaded `SavedDict` whose storage file holds an
object containing the key, the inherited probing operations
(`k in d` and `dict.get(k, default)`) consult only the in-memory (empty)
entries — membership is `false` and the probe returns the default —
while the overridden indexed read of the same key loads the file and
returns the stored value. -/
theorem saveddict_lazy_probe_vs_getitem (fn : String) (df : List (String × JVal))
    (fs : FS) (k : String) (v dv : JVal) (kvs : List (String × JVal))
    (hfs : fs fn = some (JVal.obj kvs)) (hk : lookupKey kvs k = some v)
    (hnd : keysNodup kvs) :
    (SavedDict.mk0 fn df).containsMem k = false ∧
    (SavedDict.mk0 fn df).getDefault k dv = dv ∧
    SavedDict.readValue ((SavedDict.mk0 fn df).getItem fs k) = some v := by
  refine ⟨rfl, rfl, ?_⟩
  rw [getItem_fresh (SavedDict.mk0 fn df) fs k kvs rfl rfl
    (by rw [mk0_filename]; exact hfs) hnd]
  simp [SavedDict.readValue, hk]

/-- Witness for C10 at a concrete input: file `"m.json"` holds
`{"k": 7}`; membership and defaulting probes miss, the indexed read
returns `7`. -/
theorem saveddict_lazy_probe_vs_getitem_witness :
    fsSingle "m.json" (JVal.obj [("k", JVal.num 7)]) "m.json"
        = some (JVal.obj [("k", JVal.num 7)]) ∧
    lookupKey [("k", JVal.num 7)] "k" = some (JVal.num 7) ∧
    ((SavedDict.mk0 "m.json" []).containsMem "k" = false ∧
      (SavedDict.mk0 "m.json" []).getDefault "k" JVal.null = JVal.null ∧
      SavedDict.readValue ((SavedDict.mk0 "m.json" []).getItem
        (fsSingle "m.json" (JVal.obj [("k", JVal.num 7)])) "k") = some (JVal.num 7)) :=
  ⟨rfl, rfl,
    saveddict_lazy_probe_vs_getitem "m.json" [] _ "k" (JVal.num 7) JVal.null
      [("k", JVal.num 7)] rfl rfl (by simp [keysNodup, keys])⟩

/-! ## Claim theorems: the schedule generator -/

/-- C9: for the header with `first_date` 2022-09-15 and `break_dates`
`{2022-09-22}`, the first two generated occurrences are exactly
(2022-09-15, serial 1, week 1) and (2022-09-29, serial 2, week 3): the
break date is never emitted but its 7-day step still increments the
week counter. -/
theorem data_iter_first_two_occurrences :
    data_iter ⟨d0915, none, [d0922]⟩ 2 = [⟨d0915, 1, 1⟩, ⟨d0929, 2, 3⟩] := by
  decide

/-- C1 fails on the code (the claim is the intended behaviour): with
`first_date` 2022-09-15 and `break_dates` `{2022-09-22}` the *third*
emitted occurrence is (2022-10-06, serial 3, week 3).  2022-10-06 is
`first_date + 7*3`, so the claimed invariant
`date = first_date + 7*(week - 1)` would require `week = 4`; the week
counter lost the skipped break week because `data_iter` passes `serial`
instead of the running `week` to `Header.next_week`. -/
theorem data_iter_week_counter_slip :
    data_iter ⟨d0915, none, [d0922]⟩ 3
      = [⟨d0915, 1, 1⟩, ⟨d0929, 2, 3⟩, ⟨d1006, 3, 3⟩] ∧
    d1006 = d0915 + 7 * 3 ∧
    ¬ d1006 = d0915 + 7 * (3 - 1) := by
  refine ⟨by decide, by decide, by decide⟩

/-! ## Claim theorems: `update_canvasfs` and the scope stack -/

/-- C7: reconciling with an empty active-scope stack fails immediately
with the usage error and performs no update, while with at least one
active scope it rewrites exactly the top-of-stack cache with the three
fresh snapshots. -/
theorem update_canvasfs_requires_scope (course : Course) (stack : List CanvasFS)
    (top : CanvasFS) :
    update_canvasfs [] course = Except.error CfsErr.usageError ∧
    update_canvasfs (stack ++ [top]) course
      = Except.ok (stack ++
          [{ top with
              files := some (get_canvas_files course),
              assignments := some (get_canvas_assignments course),
              quizzes := some (get_canvas_quizzes course) }]) := by
  constructor
  · rfl
  · unfold update_canvasfs
    rw [List.getLast?_concat, List.dropLast_concat]

/-! ## Claim theorems: `get_canvas_files` -/

theorem folder_files_foldl (folder : Folder) :
    ∀ (xs : List CFile) (acc : List (String × Int)),
      xs.foldl
        (fun d file =>
          setKey d (removeAll "course files" folder.full_name ++ "/" ++ file.display_name)
            file.id)
        acc
      = dictUpdate acc (xs.map (fileEntry folder)) := by
  intro xs
  induction xs with
  | nil => intro acc; simp [dictUpdate_nil]
  | cons x rest ih =>
      intro acc
      simp only [List.foldl_cons, List.map_cons, dictUpdate_cons, fileEntry]
      exact ih _

/-- The fold of `get_canvas_files` equals last-wins insertion of the
per-folder entry lists, for every folder list and accumulator. -/
theorem gcf_fold (folders : List Folder) :
    ∀ acc : List (String × Int),
      folders.foldl
        (fun data folder =>
          if folder.files_count > 0 then
            folder.files.foldl
              (fun d file =>
                setKey d
                  (removeAll "course files" folder.full_name ++ "/" ++ file.display_name)
                  file.id)
              data
          else data)
        acc
      = dictUpdate acc ((folders.map folderEntries).flatten) := by
  induction folders with
  | nil => intro acc; simp [dictUpdate_nil]
  | cons folder rest ih =>
      intro acc
      rw [List.foldl_cons, List.map_cons, List.flatten_cons, dictUpdate_append, ih]
      congr 1
      by_cases hc : folder.files_count > 0
      · simp only [if_pos hc, folderEntries, folder_files_foldl]
      · simp [hc, folderEntries, dictUpdate_nil]

/-- Counterexample to C8 as stated: the source strips *every*
occurrence of `"course files"` from the folder's full path
(`str.replace`), not only the root prefix.  For a course whose one
folder is named `course files/a/course files` (one file `f`, id 5), the
snapshot contains the key `"/a//f"`, and the key built by the claimed
prefix-stripping rule, `"/a/course files/f"`, is absent. -/
theorem get_canvas_files_strips_all_occurrences :
    get_canvas_files
        ⟨[⟨"course files/a/course files", 1, [⟨"f", 5⟩]⟩], [], fun _ => "", []⟩
      = [("/a//f", 5)] ∧
    stripRootOnly "course files/a/course files" ++ "/" ++ "f" = "/a/course files/f" ∧
    lookupKey
        (get_canvas_files
          ⟨[⟨"course files/a/course files", 1, [⟨"f", 5⟩]⟩], [], fun _ => "", []⟩)
        "/a/course files/f"
      = none := by
  refine ⟨by decide, by decide, by decide⟩

/-- C8 amended: `snapshot_files` skips every folder whose file count is
zero without listing its files, and for each file of every non-empty
folder inserts the key built from the folder's full path with every
occurrence of `"course files"` removed, followed by `/` and the file's
display name, mapped to the file's id (`dictUpdate` of the entry list,
so a duplicate key keeps the last id); in particular the course with
one folder `course files/problems` holding `mathjax.png` (id 1041047)
yields exactly `{"/problems/mathjax.png": 1041047}`. -/
theorem get_canvas_files_spec (course : Course) :
    get_canvas_files course = dictUpdate [] (filesEntries course) ∧
    get_canvas_files
        ⟨[⟨"course files/problems", 1, [⟨"mathjax.png", 1041047⟩]⟩], [], fun _ => "", []⟩
      = [("/problems/mathjax.png", 1041047)] := by
  exact ⟨gcf_fold course.folders [], by decide⟩

/-! ## Claim theorems: the named-updater reconciler -/

theorem processField_frame (dicts : String → SavedDict) (upd : Updaters)
    (course : Course) (n m : String) (h : m ≠ n) :
    (processField dicts upd course n).1 m = dicts m := by
  unfold processField
  cases upd n with
  | none => rfl
  | some u =>
      dsimp only
      cases u course with
      | error e => rfl
      | ok o =>
          cases o with
          | none => rfl
          | some data => simp [updDicts, h]

theorem processField_warning (dicts : String → SavedDict) (upd : Updaters)
    (course : Course) (n : String) :
    (processField dicts upd course n).2 = fieldWarning upd course n := by
  unfold processField fieldWarning
  cases upd n with
  | none => rfl
  | some u =>
      dsimp only
      cases u course with
      | error e => rfl
      | ok o =>
          cases o with
          | none => rfl
          | some data => rfl

theorem processField_self (dicts : String → SavedDict) (upd : Updaters)
    (course : Course) (n : String) :
    (processField dicts upd course n).1 n = fieldOutcome upd course n (dicts n) := by
  unfold processField fieldOutcome
  cases upd n with
  | none => rfl
  | some u =>
      dsimp only
      cases u course with
      | error e => rfl
      | ok o =>
          cases o with
          | none => rfl
          | some data => simp [updDicts]

theorem updateFromCanvas_frame (upd : Updaters) (course : Course) :
    ∀ (flds : List String) (dicts : String → SavedDict) (m : String), m ∉ flds →
      (updateFromCanvas dicts upd course flds).1 m = dicts m := by
  intro flds
  induction flds with
  | nil => intro dicts m _; rfl
  | cons n rest ih =>
      intro dicts m hm
      have hmn : m ≠ n := fun he => hm (he ▸ List.mem_cons_self _ _)
      have hmr : m ∉ rest := fun hr => hm (List.mem_cons_of_mem _ hr)
      show (updateFromCanvas (processField dicts upd course n).1 upd course rest).1 m
        = dicts m
      rw [ih _ m hmr, processField_frame _ _ _ _ _ hmn]

theorem updateFromCanvas_mem (upd : Updaters) (course : Course) :
    ∀ (flds : List String), flds.Nodup →
      ∀ (dicts : String → SavedDict) (m : String), m ∈ flds →
        (updateFromCanvas dicts upd course flds).1 m
          = fieldOutcome upd course m (dicts m) := by
  intro flds
  induction flds with
  | nil => intro _ dicts m hm; exact absurd hm (List.not_mem_nil m)
  | cons n rest ih =>
      intro hnd dicts m hm
      obtain ⟨hnn, hndr⟩ := List.nodup_cons.mp hnd
      show (updateFromCanvas (processField dicts upd course n).1 upd course rest).1 m = _
      rcases List.mem_cons.mp hm with he | hr
      · subst he
        rw [updateFromCanvas_frame upd course rest _ m hnn, processField_self]
      · have hmn : m ≠ n := fun he => hnn (he ▸ hr)
        rw [ih hndr _ m hr, processField_frame _ _ _ _ _ hmn]

theorem updateFromCanvas_warn (upd : Updaters) (course : Course) :
    ∀ (flds : List String) (dicts : String → SavedDict) (m : String) (w : CWarning),
      m ∈ flds → fieldWarning upd course m = some w →
      w ∈ (updateFromCanvas dicts upd course flds).2 := by
  intro flds
  induction flds with
  | nil => intro dicts m w hm _; exact absurd hm (List.not_mem_nil m)
  | cons n rest ih =>
      intro dicts m w hm hw
      show w ∈ (processField dicts upd course n).2.toList ++
        (updateFromCanvas (processField dicts upd course n).1 upd course rest).2
      rcases List.mem_cons.mp hm with he | hr
      · subst he
        rw [processField_warning, hw]
        exact List.mem_append.mpr (Or.inl (List.mem_singleton.mpr rfl))
      · exact List.mem_append.mpr (Or.inr (ih _ m w hr hw))

/-- C6: for every field list (each namespace registered once), updater
table and course: when the namespace `q`'s updater raises, the
reconcile call (which never propagates the exception — it is total)
leaves `q`'s dict untouched and logs a warning naming `q`; every
namespace `m` whose updater returns a dict is still updated to
`load(data)`; and a namespace `m₂` with no registered updater is left
untouched with a warning naming it. -/
theorem update_from_canvas_isolates_failures
    (flds : List String) (dicts : String → SavedDict) (upd : Updaters)
    (course : Course) (q m m₂ : String)
    (u u' : Course → Except Unit (Option (List (String × JVal))))
    (data : List (String × JVal))
    (hnd : flds.Nodup)
    (hq : q ∈ flds) (hqu : upd q = some u) (hqe : u course = Except.error ())
    (hm : m ∈ flds) (hmu : upd m = some u') (hmo : u' course = Except.ok (some data))
    (hm2 : m₂ ∈ flds) (hm2u : upd m₂ = none) :
    (updateFromCanvas dicts upd course flds).1 q = dicts q ∧
    CWarning.updaterFailed q ∈ (updateFromCanvas dicts upd course flds).2 ∧
    (updateFromCanvas dicts upd course flds).1 m = (dicts m).loadData data ∧
    (updateFromCanvas dicts upd course flds).1 m₂ = dicts m₂ ∧
    CWarning.noUpdater m₂ ∈ (updateFromCanvas dicts upd course flds).2 := by
  refine ⟨?_, ?_, ?_, ?_, ?_⟩
  · rw [updateFromCanvas_mem upd course flds hnd dicts q hq]
    unfold fieldOutcome
    rw [hqu]
    dsimp only
    rw [hqe]
  · exact updateFromCanvas_warn upd course flds dicts q _ hq
      (by unfold fieldWarning; rw [hqu]; dsimp only; rw [hqe])
  · rw [updateFromCanvas_mem upd course flds hnd dicts m hm]
    unfold fieldOutcome
    rw [hmu]
    dsimp only
    rw [hmo]
  · rw [updateFromCanvas_mem upd course flds hnd dicts m₂ hm2]
    unfold fieldOutcome
    rw [hm2u]
  · exact updateFromCanvas_warn upd course flds dicts m₂ _ hm2
      (by unfold fieldWarning; rw [hm2u])

/-- Witness for C6 at a concrete input: fields
`["assignments", "files", "others", "quizzes"]` with the `wUpd` table —
`"quizzes"` raises, `"files"`/`"assignments"` succeed, `"others"` has
no updater. -/
theorem update_from_canvas_isolates_failures_witness :
    (["assignments", "files", "others", "quizzes"] : List String).Nodup ∧
    ((updateFromCanvas wDicts wUpd course0
        ["assignments", "files", "others", "quizzes"]).1 "quizzes" = wDicts "quizzes" ∧
      CWarning.updaterFailed "quizzes" ∈ (updateFromCanvas wDicts wUpd course0
        ["assignments", "files", "others", "quizzes"]).2 ∧
      (updateFromCanvas wDicts wUpd course0
        ["assignments", "files", "others", "quizzes"]).1 "files"
        = (wDicts "files").loadData [("a", JVal.num 1)] ∧
      (updateFromCanvas wDicts wUpd course0
        ["assignments", "files", "others", "quizzes"]).1 "others" = wDicts "others" ∧
      CWarning.noUpdater "others" ∈ (updateFromCanvas wDicts wUpd course0
        ["assignments", "files", "others", "quizzes"]).2) :=
  ⟨by decide,
    update_from_canvas_isolates_failures
      ["assignments", "files", "others", "quizzes"] wDicts wUpd course0
      "quizzes" "files" "others"
      (fun _ => Except.error ()) (fun _ => Except.ok (some [("a", JVal.num 1)]))
      [("a", JVal.num 1)]
      (by decide) (by decide) rfl rfl (by decide) rfl rfl (by decide) rfl⟩

end Canvas
